import Mathlib

/-!
# Verification of `pymongo/json_util.py`

A shallow embedding of the two hooks of `pymongo/json_util.py` —
`object_hook` (decode) and `default` (encode) — together with the parts of
the Python runtime they rely on (dict lookups, `str`/`float` coercions,
`calendar.timegm`, `datetime` arithmetic on the proleptic Gregorian
calendar), and proofs of the behavioural properties stated in the spec.

Conventions of the embedding:
* Python values that can appear in a parsed JSON tree or as extended BSON
  values are one inductive type `Value`.  A JSON object is an association
  list of string keys (`Obj`).
* Python exceptions are an explicit `Except PyError` result.
* Machine-level floats are modelled by exact integer arithmetic: every
  numeric payload the claims exercise is an integer number of milliseconds,
  which floats of this magnitude represent exactly.
* `datetime.datetime` is modelled by its calendar fields plus the
  `utcoffset()` of its tzinfo (in minutes, `none` for a naive value), and
  the CPython `_ymd2ord` / `_ord2ymd` ordinal conversions are embedded in
  full, so the millisecond computation of the encode hook is the real
  calendar computation and not a stub; the `OverflowError` range failures
  of datetime arithmetic and of `fromtimestamp` outside years 1..9999 are
  modelled as explicit errors.
-/

namespace JsonUtil

/-- CPython's `_DAYS_IN_MONTH` table (non-leap lengths); index 1..12. -/
def dimTable (m : Nat) : Nat :=
  match m with
  | 2 => 28
  | 4 => 30 | 6 => 30 | 9 => 30 | 11 => 30
  | _ => 31

/-- CPython's `_DAYS_BEFORE_MONTH` table: days in a non-leap year strictly
before month `m`; index 1..12. -/
def daysBeforeMonthTable (m : Nat) : Nat :=
  match m with
  | 1 => 0 | 2 => 31 | 3 => 59 | 4 => 90 | 5 => 120 | 6 => 151
  | 7 => 181 | 8 => 212 | 9 => 243 | 10 => 273 | 11 => 304 | 12 => 334
  | _ => 365

/-- CPython's `_is_leap`: proleptic Gregorian leap-year rule. -/
def isLeap (y : Nat) : Bool :=
  y % 4 == 0 && (y % 100 != 0 || y % 400 == 0)

/-- Number of days in month `m` of year with leap status `leap`
(CPython `_days_in_month`). -/
def daysInMonth (leap : Bool) (m : Nat) : Nat :=
  dimTable m + (if m = 2 ∧ leap then 1 else 0)

/-- CPython's `_days_before_year y`: days between 0001-01-01 and the start
of year `y`. -/
def daysBeforeYear (y : Nat) : Nat :=
  let yp := y - 1
  365 * yp + yp / 4 - yp / 100 + yp / 400

/-- CPython's `_days_before_month`. -/
def daysBeforeMonth (y m : Nat) : Nat :=
  daysBeforeMonthTable m + (if 2 < m ∧ isLeap y then 1 else 0)

/-- CPython's `_ymd2ord`: proleptic Gregorian ordinal of a date,
with 0001-01-01 having ordinal 1 (this is `datetime.date.toordinal`). -/
def ymd2ord (y m d : Nat) : Nat :=
  daysBeforeYear y + daysBeforeMonth y m + d

/-- The month/day recovery step at the tail of CPython's `_ord2ymd`:
given the leap status of the year and the 0-based day of the year `n`,
estimate the month as `(n + 50) >> 5` and correct it downward by one if the
estimate overshoots. -/
def findMonthDay (leap : Bool) (n : Nat) : Nat × Nat :=
  let month := (n + 50) >>> 5
  let preceding := daysBeforeMonthTable month + (if 2 < month ∧ leap then 1 else 0)
  if n < preceding then
    let month1 := month - 1
    let preceding1 := preceding - (dimTable month1 + (if month1 = 2 ∧ leap then 1 else 0))
    (month1, n - preceding1 + 1)
  else
    (month, n - preceding + 1)

/-- CPython's `_ord2ymd`: inverse of `ymd2ord`, by successive division into
400-year, 100-year, 4-year and 1-year blocks (`_DI400Y = 146097`,
`_DI100Y = 36524`, `_DI4Y = 1461`), with the special case for the last day
of a 4-year or 400-year cycle. -/
def ord2ymd (n : Nat) : Nat × Nat × Nat :=
  let n0 := n - 1
  let n400 := n0 / 146097
  let r400 := n0 % 146097
  let n100 := r400 / 36524
  let r100 := r400 % 36524
  let n4 := r100 / 1461
  let r4 := r100 % 1461
  let n1 := r4 / 365
  let rest := r4 % 365
  let year := n400 * 400 + 1 + n100 * 100 + n4 * 4 + n1
  if n1 = 4 ∨ n100 = 4 then
    (year - 1, 12, 31)
  else
    let leap := n1 == 3 && (n4 != 24 || n100 == 3)
    let md := findMonthDay leap rest
    (year, md.1, md.2)

/-- Proleptic Gregorian ordinal of the Unix epoch 1970-01-01
(`ymd2ord 1970 1 1`). -/
def epochOrdinal : Nat := 719163

/-- A Python `datetime.datetime`: calendar fields plus the `utcoffset()` of
its tzinfo in minutes (`none` when the value is offset-naive).  pymongo's
`tz_util.utc` tzinfo has `utcoffset` zero, i.e. `some 0`. -/
structure PyDatetime where
  year : Nat
  month : Nat
  day : Nat
  hour : Nat
  minute : Nat
  second : Nat
  microsecond : Nat
  utcOffsetMinutes : Option Int
deriving DecidableEq, Repr

/-- The field-range invariant `datetime.datetime` enforces on construction. -/
def PyDatetime.Valid (dt : PyDatetime) : Prop :=
  1 ≤ dt.year ∧ dt.year ≤ 9999 ∧
  1 ≤ dt.month ∧ dt.month ≤ 12 ∧
  1 ≤ dt.day ∧ dt.day ≤ daysInMonth (isLeap dt.year) dt.month ∧
  dt.hour < 24 ∧ dt.minute < 60 ∧ dt.second < 60 ∧ dt.microsecond < 1000000

instance (dt : PyDatetime) : Decidable dt.Valid := by
  unfold PyDatetime.Valid; infer_instance

/-- The Python exceptions this code can surface. -/
inductive PyError : Type where
  | keyError (key : String) : PyError
  | typeError (msg : String) : PyError
  | valueError (msg : String) : PyError
  | overflowError (msg : String) : PyError
deriving DecidableEq, Repr

/-- `calendar.timegm(dt.timetuple())`: seconds since the Unix epoch of the
wall-clock fields read as UTC.  `timetuple` drops the microsecond field;
`timegm` converts the calendar fields through `toordinal`. -/
def timegmTT (dt : PyDatetime) : Int :=
  ((ymd2ord dt.year dt.month dt.day : Int) - (epochOrdinal : Int)) * 86400
    + dt.hour * 3600 + dt.minute * 60 + dt.second

/-- Microseconds from 0001-01-01T00:00:00 to the wall-clock reading of
`dt` (tz ignored); the intermediate form CPython's datetime arithmetic
works in (`toordinal` plus the time fields). -/
def toOrdinalMicros (dt : PyDatetime) : Int :=
  ((ymd2ord dt.year dt.month dt.day : Int) - 1) * 86400000000
    + dt.hour * 3600000000 + dt.minute * 60000000
    + dt.second * 1000000 + dt.microsecond

/-- Rebuild a `datetime` from microseconds since 0001-01-01T00:00:00,
attaching the given tzinfo offset; inverse direction of CPython's datetime
arithmetic (`_ord2ymd` plus divmod of the time of day).  CPython raises
`OverflowError("date value out of range")` when the result leaves the
supported calendar range `datetime.min ..= datetime.max`, i.e. ordinals
1..3652059 (`3652059 = ymd2ord 9999 12 31`). -/
def ofOrdinalMicros (us : Int) (off : Option Int) : Except PyError PyDatetime :=
  if 0 ≤ us ∧ us < 3652059 * 86400000000 then
    let usn := us.toNat
    let ymd := ord2ymd (usn / 86400000000 + 1)
    let rem := usn % 86400000000
    Except.ok { year := ymd.1, month := ymd.2.1, day := ymd.2.2,
                hour := rem / 3600000000,
                minute := rem % 3600000000 / 60000000,
                second := rem % 60000000 / 1000000,
                microsecond := rem % 1000000,
                utcOffsetMinutes := off }
  else
    Except.error (PyError.overflowError "date value out of range")

/-- Python's `dt - delta` for a timedelta of `deltaUs` microseconds: the
subtraction is performed on the ordinal/microsecond form, the tzinfo is
kept unchanged, and a result outside years 1..9999 raises
`OverflowError`, as CPython's datetime arithmetic does. -/
def dtSubMicros (dt : PyDatetime) (deltaUs : Int) : Except PyError PyDatetime :=
  ofOrdinalMicros (toOrdinalMicros dt - deltaUs) dt.utcOffsetMinutes

/-- `datetime.datetime.fromtimestamp(millis / 1000.0, utc)` under exact
arithmetic of the rational `millis / 1000`: whole seconds are the floor,
the fractional remainder supplies the microseconds (exact here because the
input is an integral number of milliseconds), and the calendar fields come
from `_ord2ymd`; the resulting value carries the `utc` tzinfo (offset 0,
whose `fromutc` adds a zero timedelta).  A timestamp denoting an instant
outside years 1..9999 raises, as CPython's `fromtimestamp` does (the
exact class and message — `ValueError` or `OverflowError` — are
platform- and version-dependent; normalized here to one range error). -/
def fromtimestampMillisUtc (millis : Int) : Except PyError PyDatetime :=
  let secs := Int.fdiv millis 1000
  let usec := Int.fmod millis 1000 * 1000
  let days := Int.fdiv secs 86400
  let sod := (Int.fmod secs 86400).toNat
  let ordv := days + (epochOrdinal : Int)
  if 1 ≤ ordv ∧ ordv ≤ 3652059 then
    let ymd := ord2ymd ordv.toNat
    Except.ok { year := ymd.1, month := ymd.2.1, day := ymd.2.2,
                hour := sod / 3600,
                minute := sod % 3600 / 60,
                second := sod % 60,
                microsecond := usec.toNat,
                utcOffsetMinutes := some 0 }
  else
    Except.error (PyError.overflowError "timestamp out of range")

/-- `re.IGNORECASE` (Python 2 `sre_constants.SRE_FLAG_IGNORECASE`). -/
def reIGNORECASE : Nat := 2

/-- `re.MULTILINE` (Python 2 `sre_constants.SRE_FLAG_MULTILINE`). -/
def reMULTILINE : Nat := 8

/-- A Python value as seen by the two hooks: the base JSON model
(null/bool/number/string/array/object) plus the extended BSON types
`json_util.py` dispatches on.  Numbers are modelled as exact integers.
* `vObjectId` holds the 24-hex-character string form (`pymongo.objectid`,
  modelled from the spec: an opaque identifier whose constructor stores the
  string and whose `str` returns it).
* `vDBRef` holds collection, id and optional database exactly as passed to
  the `DBRef` constructor (`pymongo.dbref`, modelled from the spec as an
  opaque record).
* `vTimestamp` holds the `time` and `inc` accessors of
  `pymongo.timestamp.Timestamp`.
* `vRegex` holds the pattern string and the `flags` bitmask of a compiled
  `re` pattern. -/
inductive Value : Type where
  | vNull : Value
  | vBool (b : Bool) : Value
  | vNum (n : Int) : Value
  | vStr (s : String) : Value
  | vArr (items : List Value) : Value
  | vObj (fields : List (String × Value)) : Value
  | vObjectId (oid : String) : Value
  | vDBRef (collection : Value) (id : Value) (database : Option Value) : Value
  | vDatetime (dt : PyDatetime) : Value
  | vRegex (pattern : String) (flags : Nat) : Value
  | vMinKey : Value
  | vMaxKey : Value
  | vTimestamp (time : Int) (inc : Int) : Value

/-- A parsed JSON object: ordered association list of string keys, as
handed to `object_hook` (a Python dict has no duplicate keys; lookups take
the first occurrence). -/
abbrev Obj := List (String × Value)

/-- Python `repr` of a value (model: faithful on the scalar base
constructors, which are the ones the unsupported-type error message can
carry; schematic on containers). -/
def pyRepr (v : Value) : String :=
  match v with
  | .vNull => "None"
  | .vBool true => "True"
  | .vBool false => "False"
  | .vNum n => toString n
  | .vStr s => "'" ++ s ++ "'"
  | .vArr _ => "[...]"
  | .vObj _ => "\x7b...\x7d"
  | .vObjectId s => "ObjectId('" ++ s ++ "')"
  | .vDBRef _ _ _ => "DBRef(...)"
  | .vDatetime _ => "datetime.datetime(...)"
  | .vRegex p _ => "<_sre.SRE_Pattern '" ++ p ++ "'>"
  | .vMinKey => "<pymongo.min_key.MinKey instance>"
  | .vMaxKey => "<pymongo.max_key.MaxKey instance>"
  | .vTimestamp t i => "Timestamp(" ++ toString t ++ ", " ++ toString i ++ ")"

/-- Python `str` of a value: identity on strings, decimal form of numbers,
`str` of an `ObjectId` is its stored hex string; everything else falls back
to `repr`. -/
def pyStr (v : Value) : String :=
  match v with
  | .vStr s => s
  | .vNum n => toString n
  | .vBool true => "True"
  | .vBool false => "False"
  | .vNull => "None"
  | .vObjectId s => s
  | other => pyRepr other

/-- Digit-string value: `some` of the decimal reading when every character
is a digit, `none` otherwise. -/
def digitsVal? (cs : List Char) : Option Nat :=
  if cs ≠ [] ∧ cs.all Char.isDigit then
    some (cs.foldl (fun a c => a * 10 + (c.toNat - 48)) 0)
  else
    none

/-- Decimal reading of an optionally `-`-signed digit string. -/
def strToInt? (s : String) : Option Int :=
  match s.toList with
  | '-' :: rest => (digitsVal? rest).map (fun n => -(n : Int))
  | l => (digitsVal? l).map (fun n => (n : Int))

/-- Python `float(v)` restricted to exactly representable integral values:
numbers pass through, booleans coerce to 0/1, numeric strings are parsed,
anything else raises (`TypeError` for non-coercible types, `ValueError`
for a non-numeric string). -/
def pyFloat (v : Value) : Except PyError Int :=
  match v with
  | .vNum n => .ok n
  | .vBool b => .ok (if b then 1 else 0)
  | .vStr s =>
    match strToInt? s with
    | some n => .ok n
    | none => .error (.valueError ("could not convert string to float: " ++ s))
  | other => .error (.typeError ("float() argument must be a string or a number, not " ++ pyRepr other))

/-- First value bound to key `k` in the object, if any. -/
def getVal (d : Obj) (k : String) : Option Value :=
  match d with
  | [] => none
  | (k', v) :: rest => if k' = k then some v else getVal rest k

/-- Python `k in dct`. -/
def hasKey (d : Obj) (k : String) : Bool :=
  (getVal d k).isSome

/-- Python `dct[k]`: direct key access, raising `KeyError` when absent. -/
def getItem (d : Obj) (k : String) : Except PyError Value :=
  match getVal d k with
  | some v => .ok v
  | none => .error (.keyError k)

/-- Python `c in dct[k]`-style containment of a single character in a
string value; a non-string payload raises `TypeError` as Python's `in`
operator would. -/
def pyCharIn (c : Char) (v : Value) : Except PyError Bool :=
  match v with
  | .vStr s => .ok (s.toList.contains c)
  | other => .error (.typeError ("argument of type '" ++ pyRepr other ++ "' is not iterable"))

/-- `re.compile(pattern, flags)` (Python 2): requires a string pattern and
stores the flag bitmask as given. -/
def reCompile (pattern : Value) (flags : Nat) : Except PyError Value :=
  match pattern with
  | .vStr s => .ok (.vRegex s flags)
  | other => .error (.typeError ("first argument must be string or compiled pattern, not " ++ pyRepr other))

/-- `json_util.object_hook`: sequential sentinel-key checks in source
order (`$oid`, `$ref`, `$date`, `$regex`, `$minKey`, `$maxKey`), first
match returning the reconstructed extended value, otherwise pass-through. -/
def object_hook (dct : Obj) : Except PyError Value :=
  if hasKey dct "$oid" then do
    let v ← getItem dct "$oid"
    return .vObjectId (pyStr v)
  else if hasKey dct "$ref" then do
    let c ← getItem dct "$ref"
    let i ← getItem dct "$id"
    return .vDBRef c i (getVal dct "$db")
  else if hasKey dct "$date" then do
    let v ← getItem dct "$date"
    let millis ← pyFloat v
    let dtv ← fromtimestampMillisUtc millis
    return .vDatetime dtv
  else if hasKey dct "$regex" then do
    let opts ← getItem dct "$options"
    let hasI ← pyCharIn 'i' opts
    let flags1 := if hasI then 0 ||| reIGNORECASE else 0
    let hasM ← pyCharIn 'm' opts
    let flags2 := if hasM then flags1 ||| reMULTILINE else flags1
    let p ← getItem dct "$regex"
    reCompile p flags2
  else if hasKey dct "$minKey" then
    return .vMinKey
  else if hasKey dct "$maxKey" then
    return .vMaxKey
  else
    return .vObj dct

/-- Modelled from the spec: `DBRef.as_doc` (pymongo/dbref.py is not under
src/).  Per the spec, reference encoding "delegates to the Reference
value's own convert-to-plain-document capability", whose shape is the
payload table `$ref`: collection, `$id`: identifier value, `$db`: optional
database name, "including omission of `$db` when absent". -/
def dbrefAsDoc (collection id : Value) (database : Option Value) : Obj :=
  [("$ref", collection), ("$id", id)]
    ++ (match database with
        | some db => [("$db", db)]
        | none => [])

/-- The `$options` string built by the pattern branch of `default`:
start from `""`, append `"i"` when the `re.IGNORECASE` bit is set in the
pattern's flags, then append `"m"` when the `re.MULTILINE` bit is set. -/
def reFlagsStr (f : Nat) : String :=
  let flags := ""
  let flags := if f &&& reIGNORECASE ≠ 0 then flags ++ "i" else flags
  let flags := if f &&& reMULTILINE ≠ 0 then flags ++ "m" else flags
  flags

/-- `json_util.default`: runtime-type dispatch in source order (ObjectId,
DBRef, datetime, compiled pattern, MinKey, MaxKey, Timestamp), producing
the tagged mapping for recognized types and raising `TypeError` otherwise.
The datetime branch first subtracts `utcoffset()` when the value is
offset-aware, then computes
`int(calendar.timegm(obj.timetuple()) * 1000 + obj.microsecond / 1000)`
(Python 2 `/` on ints is floor division). -/
def default (obj : Value) : Except PyError Value :=
  match obj with
  | .vObjectId s => .ok (.vObj [("$oid", .vStr s)])
  | .vDBRef c i db => .ok (.vObj (dbrefAsDoc c i db))
  | .vDatetime dt => do
    let dtU ← match dt.utcOffsetMinutes with
      | some o => dtSubMicros dt (o * 60000000)
      | none => .ok dt
    return .vObj [("$date", .vNum (timegmTT dtU * 1000 + dtU.microsecond / 1000))]
  | .vRegex p f =>
    .ok (.vObj [("$regex", .vStr p), ("$options", .vStr (reFlagsStr f))])
  | .vMinKey => .ok (.vObj [("$minKey", .vNum 1)])
  | .vMaxKey => .ok (.vObj [("$maxKey", .vNum 1)])
  | .vTimestamp t i => .ok (.vObj [("t", .vNum t), ("i", .vNum i)])
  | other => .error (.typeError (pyRepr other ++ " is not JSON serializable"))

/-- Restriction of an object to a set of keys (used to state that a branch
of `object_hook` reads only its own payload fields). -/
def restrict (d : Obj) (ks : List String) : Obj :=
  d.filter (fun kv => ks.contains kv.1)

/-- The seven runtime types recognized by `default`'s `isinstance` chain:
ObjectId, DBRef, datetime, compiled pattern, MinKey, MaxKey, Timestamp. -/
def recognizedExtended (v : Value) : Bool :=
  match v with
  | .vObjectId _ => true
  | .vDBRef _ _ _ => true
  | .vDatetime _ => true
  | .vRegex _ _ => true
  | .vMinKey => true
  | .vMaxKey => true
  | .vTimestamp _ _ => true
  | _ => false

/-- `v` encodes to a mapping that decodes back to `v`:
`object_hook (default v) = v`. -/
def RoundTrips (v : Value) : Prop :=
  ∃ d, default v = .ok (.vObj d) ∧ object_hook d = .ok v

/-- The spec's formula for the `$date` payload, written from the spec's
words to compare with the code's computation: normalize to UTC by
subtracting the offset when one is present, then take
`floor(seconds-since-epoch) * 1000 + floor(microseconds / 1000)` of the
normalized instant (`U` below is that instant in microseconds since the
Unix epoch; its whole seconds are `⌊U / 10^6⌋` and its microsecond field
is `U mod 10^6`). -/
def specDateMillis (dt : PyDatetime) : Int :=
  let offUs := (dt.utcOffsetMinutes.getD 0) * 60000000
  let U := (toOrdinalMicros dt - offUs) - 719162 * 86400000000
  1000 * Int.fdiv U 1000000 + Int.fmod U 1000000 / 1000

/-! ### Association-list lemmas -/

theorem hasKey_iff_exists {d : Obj} {k : String} :
    hasKey d k = true ↔ ∃ v, getVal d k = some v := by
  unfold hasKey
  exact Option.isSome_iff_exists

theorem hasKey_eq_false_iff {d : Obj} {k : String} :
    hasKey d k = false ↔ getVal d k = none := by
  unfold hasKey
  cases getVal d k <;> simp

theorem getItem_eq_ok {d : Obj} {k : String} {v : Value}
    (h : getVal d k = some v) : getItem d k = .ok v := by
  unfold getItem
  rw [h]

theorem getItem_eq_error {d : Obj} {k : String}
    (h : hasKey d k = false) : getItem d k = .error (.keyError k) := by
  unfold getItem
  rw [hasKey_eq_false_iff.mp h]

theorem getVal_restrict (d : Obj) (ks : List String) (k : String) :
    getVal (restrict d ks) k = if k ∈ ks then getVal d k else none := by
  induction d with
  | nil =>
    simp [restrict, getVal]
  | cons kv rest ih =>
    obtain ⟨k', v⟩ := kv
    by_cases hmem : k' ∈ ks
    · have hc : ks.contains k' = true := by simpa using hmem
      simp only [restrict, List.filter_cons, hc, if_true] at *
      by_cases hk : k' = k
      · subst hk
        simp [getVal, hmem]
      · simp only [getVal, if_neg hk]
        exact ih
    · have hc : ks.contains k' = true ↔ False := by simpa using hmem
      simp only [restrict, List.filter_cons, hc, if_false] at *
      by_cases hk : k' = k
      · subst hk
        rw [ih, if_neg hmem, if_neg hmem]
      · rw [ih]
        by_cases hkk : k ∈ ks
        · rw [if_pos hkk, if_pos hkk]
          simp [getVal, hk]
        · rw [if_neg hkk, if_neg hkk]

theorem hasKey_restrict (d : Obj) (ks : List String) (k : String) :
    hasKey (restrict d ks) k = (decide (k ∈ ks) && hasKey d k) := by
  unfold hasKey
  rw [getVal_restrict]
  by_cases h : k ∈ ks
  · simp [h]
  · simp [h]

theorem getItem_restrict {d : Obj} {ks : List String} {k : String} (h : k ∈ ks) :
    getItem (restrict d ks) k = getItem d k := by
  unfold getItem
  rw [getVal_restrict, if_pos h]

/-- When `$oid` is present, `object_hook` returns the identifier built by
stringifying its payload, whatever else the mapping contains. -/
theorem object_hook_oid_eq {d : Obj} {v : Value} (h : getVal d "$oid" = some v) :
    object_hook d = .ok (.vObjectId (pyStr v)) := by
  have hk : hasKey d "$oid" = true := hasKey_iff_exists.mpr ⟨v, h⟩
  unfold object_hook
  rw [hk, if_pos rfl, getItem_eq_ok h]
  rfl

/-- The `$date` branch of `object_hook`: once the payload has been coerced
to a float, the result is whatever `fromtimestamp` produces (a value or a
range error). -/
theorem object_hook_date_eq {d : Obj} {v : Value} {n : Int}
    (h0 : hasKey d "$oid" = false) (h1 : hasKey d "$ref" = false)
    (hv : getVal d "$date" = some v) (hf : pyFloat v = .ok n) :
    object_hook d = (fromtimestampMillisUtc n).bind (fun dtv => .ok (.vDatetime dtv)) := by
  have h2 : hasKey d "$date" = true := hasKey_iff_exists.mpr ⟨_, hv⟩
  unfold object_hook
  rw [h0, h1, h2]
  simp only [Bool.false_eq_true, if_false, eq_self_iff_true, if_true]
  rw [getItem_eq_ok hv]
  show (pyFloat v).bind _ = _
  rw [hf]
  rfl

/-- The datetime branch of `default` on an offset-naive value: no
normalization arithmetic happens. -/
theorem default_vDatetime_naive {dt : PyDatetime} (hoff : dt.utcOffsetMinutes = none) :
    default (.vDatetime dt)
      = .ok (.vObj [("$date",
          .vNum (timegmTT dt * 1000 + (dt.microsecond : Int) / 1000))]) := by
  simp only [default, hoff]
  rfl

/-- The datetime branch of `default` on an offset-aware value whose
normalization stays in range. -/
theorem default_vDatetime_ok {dt dtU : PyDatetime} {o : Int}
    (hoff : dt.utcOffsetMinutes = some o)
    (hsub : dtSubMicros dt (o * 60000000) = .ok dtU) :
    default (.vDatetime dt)
      = .ok (.vObj [("$date",
          .vNum (timegmTT dtU * 1000 + (dtU.microsecond : Int) / 1000))]) := by
  simp only [default, hoff, hsub]
  rfl

/-- The datetime branch of `default` on an offset-aware value whose
normalization overflows: the range error propagates. -/
theorem default_vDatetime_err {dt : PyDatetime} {o : Int} {e : PyError}
    (hoff : dt.utcOffsetMinutes = some o)
    (hsub : dtSubMicros dt (o * 60000000) = .error e) :
    default (.vDatetime dt) = .error e := by
  simp only [default, hoff, hsub]
  rfl

/-! ### Claim theorems: pass-through and timestamp asymmetry -/

/-- C3: a string-keyed mapping containing none of the six sentinel keys
`$oid`, `$ref`, `$date`, `$regex`, `$minKey`, `$maxKey` is returned by
`object_hook` unchanged, field for field. -/
theorem claim_C3_pass_through (d : Obj)
    (h1 : hasKey d "$oid" = false) (h2 : hasKey d "$ref" = false)
    (h3 : hasKey d "$date" = false) (h4 : hasKey d "$regex" = false)
    (h5 : hasKey d "$minKey" = false) (h6 : hasKey d "$maxKey" = false) :
    object_hook d = .ok (.vObj d) := by
  unfold object_hook
  rw [h1, h2, h3, h4, h5, h6]
  rfl

/-- Witness for C3 at the concrete mapping `[("a", 1)]`. -/
theorem claim_C3_pass_through_witness :
    object_hook [("a", Value.vNum 1)] = .ok (.vObj [("a", Value.vNum 1)]) :=
  claim_C3_pass_through [("a", Value.vNum 1)] rfl rfl rfl rfl rfl rfl

/-- C2: `object_hook` tests the sentinel keys in the fixed order `$oid`,
`$ref`, `$date`, `$regex`, `$minKey`, `$maxKey`; the first key present
determines the result and the payload fields of all later sentinels are
ignored — each branch's result coincides with the result on the mapping
restricted to that branch's own payload keys (for the two sentinel-only
branches the result is the bare sentinel value outright).  In particular a
mapping containing both `$oid` and `$ref` decodes to an ObjectId built
from the `$oid` payload, not a DBRef. -/
theorem claim_C2_first_sentinel_wins (d : Obj) :
    (hasKey d "$oid" = true →
      object_hook d = object_hook (restrict d ["$oid"])) ∧
    (hasKey d "$oid" = false → hasKey d "$ref" = true →
      object_hook d = object_hook (restrict d ["$ref", "$id", "$db"])) ∧
    (hasKey d "$oid" = false → hasKey d "$ref" = false → hasKey d "$date" = true →
      object_hook d = object_hook (restrict d ["$date"])) ∧
    (hasKey d "$oid" = false → hasKey d "$ref" = false → hasKey d "$date" = false →
     hasKey d "$regex" = true →
      object_hook d = object_hook (restrict d ["$regex", "$options"])) ∧
    (hasKey d "$oid" = false → hasKey d "$ref" = false → hasKey d "$date" = false →
     hasKey d "$regex" = false → hasKey d "$minKey" = true →
      object_hook d = .ok .vMinKey) ∧
    (hasKey d "$oid" = false → hasKey d "$ref" = false → hasKey d "$date" = false →
     hasKey d "$regex" = false → hasKey d "$minKey" = false → hasKey d "$maxKey" = true →
      object_hook d = .ok .vMaxKey) ∧
    (∀ v, getVal d "$oid" = some v → hasKey d "$ref" = true →
      object_hook d = .ok (.vObjectId (pyStr v))) := by
  refine ⟨?_, ?_, ?_, ?_, ?_, ?_, ?_⟩
  · intro h
    have hk : hasKey (restrict d ["$oid"]) "$oid" = true := by
      rw [hasKey_restrict, h]
      rfl
    have hi : getItem (restrict d ["$oid"]) "$oid" = getItem d "$oid" :=
      getItem_restrict (by decide)
    unfold object_hook
    rw [h, hk, if_pos rfl, if_pos rfl, hi]
  · intro h0 h1
    have hk0 : hasKey (restrict d ["$ref", "$id", "$db"]) "$oid" = false := by
      rw [hasKey_restrict]
      rfl
    have hk1 : hasKey (restrict d ["$ref", "$id", "$db"]) "$ref" = true := by
      rw [hasKey_restrict, h1]
      rfl
    have hr : getItem (restrict d ["$ref", "$id", "$db"]) "$ref" = getItem d "$ref" :=
      getItem_restrict (by decide)
    have hi : getItem (restrict d ["$ref", "$id", "$db"]) "$id" = getItem d "$id" :=
      getItem_restrict (by decide)
    have hd : getVal (restrict d ["$ref", "$id", "$db"]) "$db" = getVal d "$db" := by
      rw [getVal_restrict, if_pos (by decide)]
    unfold object_hook
    rw [h0, h1, hk0, hk1]
    simp only [Bool.false_eq_true, if_false, eq_self_iff_true, if_true]
    rw [hr, hi, hd]
  · intro h0 h1 h2
    have hk0 : hasKey (restrict d ["$date"]) "$oid" = false := by
      rw [hasKey_restrict]
      rfl
    have hk1 : hasKey (restrict d ["$date"]) "$ref" = false := by
      rw [hasKey_restrict]
      rfl
    have hk2 : hasKey (restrict d ["$date"]) "$date" = true := by
      rw [hasKey_restrict, h2]
      rfl
    have hv : getItem (restrict d ["$date"]) "$date" = getItem d "$date" :=
      getItem_restrict (by decide)
    unfold object_hook
    rw [h0, h1, h2, hk0, hk1, hk2]
    simp only [Bool.false_eq_true, if_false, eq_self_iff_true, if_true]
    rw [hv]
  · intro h0 h1 h2 h3
    have hk0 : hasKey (restrict d ["$regex", "$options"]) "$oid" = false := by
      rw [hasKey_restrict]
      rfl
    have hk1 : hasKey (restrict d ["$regex", "$options"]) "$ref" = false := by
      rw [hasKey_restrict]
      rfl
    have hk2 : hasKey (restrict d ["$regex", "$options"]) "$date" = false := by
      rw [hasKey_restrict]
      rfl
    have hk3 : hasKey (restrict d ["$regex", "$options"]) "$regex" = true := by
      rw [hasKey_restrict, h3]
      rfl
    have ho : getItem (restrict d ["$regex", "$options"]) "$options" = getItem d "$options" :=
      getItem_restrict (by decide)
    have hp : getItem (restrict d ["$regex", "$options"]) "$regex" = getItem d "$regex" :=
      getItem_restrict (by decide)
    unfold object_hook
    rw [h0, h1, h2, h3, hk0, hk1, hk2, hk3]
    simp only [Bool.false_eq_true, if_false, eq_self_iff_true, if_true]
    rw [ho, hp]
  · intro h0 h1 h2 h3 h4
    unfold object_hook
    rw [h0, h1, h2, h3, h4]
    rfl
  · intro h0 h1 h2 h3 h4 h5
    unfold object_hook
    rw [h0, h1, h2, h3, h4, h5]
    rfl
  · intro v hv _
    exact object_hook_oid_eq hv

/-- Witness for C2 at the mapping `[("$oid", "a"), ("$ref", "c")]`: the
`$oid` payload wins over the `$ref` payload. -/
theorem claim_C2_first_sentinel_wins_witness :
    object_hook [("$oid", Value.vStr "a"), ("$ref", Value.vStr "c")]
      = .ok (.vObjectId "a") :=
  (claim_C2_first_sentinel_wins
      [("$oid", Value.vStr "a"), ("$ref", Value.vStr "c")]).2.2.2.2.2.2
    (Value.vStr "a") rfl rfl

/-- C8: a mapping matching a sentinel key but lacking a required sibling
field makes `object_hook` raise a missing-key failure that propagates
unmodified: `$ref` present without `$id` raises `KeyError "$id"`, and
`$regex` present without `$options` raises `KeyError "$options"`. -/
theorem claim_C8_missing_sibling_key_error (d : Obj) :
    (hasKey d "$oid" = false → hasKey d "$ref" = true → hasKey d "$id" = false →
      object_hook d = .error (.keyError "$id")) ∧
    (hasKey d "$oid" = false → hasKey d "$ref" = false → hasKey d "$date" = false →
     hasKey d "$regex" = true → hasKey d "$options" = false →
      object_hook d = .error (.keyError "$options")) := by
  constructor
  · intro h0 h1 h2
    obtain ⟨c, hc⟩ := hasKey_iff_exists.mp h1
    unfold object_hook
    rw [h0, h1]
    simp only [Bool.false_eq_true, if_false, eq_self_iff_true, if_true]
    rw [getItem_eq_ok hc, getItem_eq_error h2]
    rfl
  · intro h0 h1 h2 h3 h4
    unfold object_hook
    rw [h0, h1, h2, h3]
    simp only [Bool.false_eq_true, if_false, eq_self_iff_true, if_true]
    rw [getItem_eq_error h4]
    rfl

/-- Witness for C8 at the mappings `[("$ref", "c")]` and
`[("$regex", "p")]`. -/
theorem claim_C8_missing_sibling_key_error_witness :
    object_hook [("$ref", Value.vStr "c")] = .error (.keyError "$id") ∧
    object_hook [("$regex", Value.vStr "p")] = .error (.keyError "$options") :=
  ⟨(claim_C8_missing_sibling_key_error [("$ref", Value.vStr "c")]).1 rfl rfl rfl,
   (claim_C8_missing_sibling_key_error [("$regex", Value.vStr "p")]).2 rfl rfl rfl rfl rfl⟩

/-- C4: encoding a logical timestamp with seconds `t` and increment `i`
yields the mapping `[("t", t), ("i", i)]`, and decoding that mapping
returns the plain two-field mapping itself (`Value.vObj`, not a
reconstructed `Value.vTimestamp`): the decode side has no branch for the
`t`/`i` shape. -/
theorem claim_C4_timestamp_asymmetry (t i : Int) :
    default (.vTimestamp t i) = .ok (.vObj [("t", .vNum t), ("i", .vNum i)]) ∧
    object_hook [("t", .vNum t), ("i", .vNum i)]
      = .ok (.vObj [("t", .vNum t), ("i", .vNum i)]) := by
  constructor
  · rfl
  · rfl

/-- C5 counterexample: the claim as stated is false — at the valid,
constructible value `datetime(9999, 12, 31, 23, 0, 0, 0)` with a
`-120`-minute UTC offset (a recognized type), `default` does not return a
mapping: the normalization `obj - obj.utcoffset()` overflows past year
9999 and the `OverflowError` propagates. -/
theorem claim_C5_overflow_counterexample :
    recognizedExtended (.vDatetime ⟨9999, 12, 31, 23, 0, 0, 0, some (-120)⟩) = true ∧
    default (.vDatetime ⟨9999, 12, 31, 23, 0, 0, 0, some (-120)⟩)
      = .error (.overflowError "date value out of range") :=
  ⟨rfl, rfl⟩

/-- C5 (amended): `default` raises the unsupported-type `TypeError`,
carrying the value's textual representation, exactly when its argument is
an instance of none of the seven recognized extended types; on a value of
a recognized type it never raises that error, and it returns a mapping
except when the value is a datetime whose UTC normalization overflows the
supported calendar range, in which case the range `OverflowError`
propagates instead. -/
theorem claim_C5_unsupported_type_error_amended (v : Value) :
    (recognizedExtended v = false →
      default v = .error (.typeError (pyRepr v ++ " is not JSON serializable"))) ∧
    (recognizedExtended v = true → ∀ msg, default v ≠ .error (.typeError msg)) ∧
    (recognizedExtended v = true →
      (∃ d, default v = .ok (.vObj d)) ∨ ∃ msg, default v = .error (.overflowError msg)) := by
  refine ⟨?_, ?_, ?_⟩
  · intro h
    cases v <;> first | rfl | simp [recognizedExtended] at h
  · intro h msg hne
    cases v <;> try simp [recognizedExtended] at h
    case vDatetime dt =>
      cases hoff : dt.utcOffsetMinutes with
      | none =>
        rw [default_vDatetime_naive hoff] at hne
        simp at hne
      | some ov =>
        by_cases hc : 0 ≤ toOrdinalMicros dt - ov * 60000000 ∧
            toOrdinalMicros dt - ov * 60000000 < 3652059 * 86400000000
        · obtain ⟨dtU, hsub⟩ : ∃ dtU, dtSubMicros dt (ov * 60000000) = .ok dtU := by
            simp only [dtSubMicros, hoff, ofOrdinalMicros, if_pos hc]
            exact ⟨_, rfl⟩
          rw [default_vDatetime_ok hoff hsub] at hne
          simp at hne
        · have hsub : dtSubMicros dt (ov * 60000000)
              = .error (.overflowError "date value out of range") := by
            simp only [dtSubMicros, hoff, ofOrdinalMicros, if_neg hc]
          rw [default_vDatetime_err hoff hsub] at hne
          simp at hne
    all_goals simp [default] at hne
  · intro h
    cases v <;> try simp [recognizedExtended] at h
    case vDatetime dt =>
      cases hoff : dt.utcOffsetMinutes with
      | none => exact Or.inl ⟨_, default_vDatetime_naive hoff⟩
      | some ov =>
        by_cases hc : 0 ≤ toOrdinalMicros dt - ov * 60000000 ∧
            toOrdinalMicros dt - ov * 60000000 < 3652059 * 86400000000
        · obtain ⟨dtU, hsub⟩ : ∃ dtU, dtSubMicros dt (ov * 60000000) = .ok dtU := by
            simp only [dtSubMicros, hoff, ofOrdinalMicros, if_pos hc]
            exact ⟨_, rfl⟩
          exact Or.inl ⟨_, default_vDatetime_ok hoff hsub⟩
        · refine Or.inr ⟨"date value out of range", default_vDatetime_err hoff ?_⟩
          simp only [dtSubMicros, hoff, ofOrdinalMicros, if_neg hc]
    all_goals exact Or.inl ⟨_, rfl⟩

/-- Witness for the amended C5: MinKey encodes to a mapping and never
raises the unsupported-type error, while null (none of the seven types)
raises it. -/
theorem claim_C5_unsupported_type_error_amended_witness :
    default .vNull = .error (.typeError "None is not JSON serializable") ∧
    default .vMinKey ≠ .error (.typeError "boom") ∧
    ((∃ d, default .vMinKey = .ok (.vObj d)) ∨
      ∃ msg, default .vMinKey = .error (.overflowError msg)) :=
  ⟨(claim_C5_unsupported_type_error_amended .vNull).1 rfl,
   (claim_C5_unsupported_type_error_amended .vMinKey).2.1 rfl "boom",
   (claim_C5_unsupported_type_error_amended .vMinKey).2.2 rfl⟩

/-- C6: for every compiled pattern, the `$options` string produced by
`default` contains `'i'` iff the case-insensitive bit is set and `'m'` iff
the multiline bit is set, contains no other characters (all other flags
are dropped), and is `""` when neither bit is set. -/
theorem claim_C6_flag_fidelity (p : String) (f : Nat) :
    default (.vRegex p f)
      = .ok (.vObj [("$regex", .vStr p), ("$options", .vStr (reFlagsStr f))]) ∧
    ('i' ∈ (reFlagsStr f).toList ↔ f &&& reIGNORECASE ≠ 0) ∧
    ('m' ∈ (reFlagsStr f).toList ↔ f &&& reMULTILINE ≠ 0) ∧
    (∀ c ∈ (reFlagsStr f).toList, c = 'i' ∨ c = 'm') ∧
    (f &&& reIGNORECASE = 0 → f &&& reMULTILINE = 0 → reFlagsStr f = "") := by
  by_cases hi : f &&& reIGNORECASE = 0 <;> by_cases hm : f &&& reMULTILINE = 0
  · have hs : reFlagsStr f = "" := by
      unfold reFlagsStr
      simp [hi, hm]
    refine ⟨rfl, ?_, ?_, ?_, ?_⟩ <;> rw [hs] <;> simp [hi, hm]
  · have hs : reFlagsStr f = "m" := by
      unfold reFlagsStr
      simp [hi, hm]
    refine ⟨rfl, ?_, ?_, ?_, ?_⟩ <;> rw [hs] <;> simp [hi, hm]
  · have hs : reFlagsStr f = "i" := by
      unfold reFlagsStr
      simp [hi, hm]
    refine ⟨rfl, ?_, ?_, ?_, ?_⟩ <;> rw [hs] <;> simp [hi, hm]
  · have hs : reFlagsStr f = "im" := by
      unfold reFlagsStr
      simp [hi, hm]
    refine ⟨rfl, ?_, ?_, ?_, ?_⟩ <;> rw [hs] <;> simp [hi, hm]

/-- Witness for C6 at flags `re.IGNORECASE ||| re.MULTILINE` (both set)
and at flags `0` (neither set, so `$options` is empty). -/
theorem claim_C6_flag_fidelity_witness :
    reFlagsStr 10 = "im" ∧ reFlagsStr 0 = "" :=
  ⟨by
    have h := (claim_C6_flag_fidelity "p" 10).2.2.2.1
    have hi := (claim_C6_flag_fidelity "p" 10).2.1.mpr (by decide)
    have hm := (claim_C6_flag_fidelity "p" 10).2.2.1.mpr (by decide)
    rfl,
   (claim_C6_flag_fidelity "p" 0).2.2.2.2 (by decide) (by decide)⟩

/-- C10 counterexample: the claim as stated is false — `10^18` is a
number (trivially convertible to a float), but decoding
`[("$date", 10^18)]` does not produce a point-in-time value: the
timestamp denotes an instant far past year 9999, where `fromtimestamp`
raises a range error that propagates. -/
theorem claim_C10_overflow_counterexample :
    pyFloat (.vNum 1000000000000000000) = .ok 1000000000000000000 ∧
    object_hook [("$date", Value.vNum 1000000000000000000)]
      = .error (.overflowError "timestamp out of range") :=
  ⟨rfl, rfl⟩

/-- C10 (amended): `object_hook` coerces tagged payloads instead of
requiring their canonical types: a `$date` payload that is a number, or a
numeric string convertible to one, whose millisecond value denotes an
instant within `fromtimestamp`'s supported range (years 1..9999), decodes
to the corresponding UTC point in time (outside that range the
range error of `fromtimestamp` propagates); and a `$oid` payload of any
type is passed through `str` before the ObjectId constructor (a
non-string payload is stringified, not rejected). -/
theorem claim_C10_payload_coercion_amended :
    (∀ (d : Obj) (n : Int) (dtv : PyDatetime),
      hasKey d "$oid" = false → hasKey d "$ref" = false →
      getVal d "$date" = some (.vNum n) → fromtimestampMillisUtc n = .ok dtv →
      object_hook d = .ok (.vDatetime dtv)) ∧
    (∀ (d : Obj) (s : String) (n : Int) (dtv : PyDatetime),
      hasKey d "$oid" = false → hasKey d "$ref" = false →
      getVal d "$date" = some (.vStr s) → strToInt? s = some n →
      fromtimestampMillisUtc n = .ok dtv →
      object_hook d = .ok (.vDatetime dtv)) ∧
    (∀ (d : Obj) (v : Value), getVal d "$oid" = some v →
      object_hook d = .ok (.vObjectId (pyStr v))) := by
  refine ⟨?_, ?_, ?_⟩
  · intro d n dtv h0 h1 hv hts
    rw [object_hook_date_eq h0 h1 hv rfl, hts]
    rfl
  · intro d s n dtv h0 h1 hv hs hts
    have hf : pyFloat (.vStr s) = .ok n := by
      simp only [pyFloat, hs]
    rw [object_hook_date_eq h0 h1 hv hf, hts]
    rfl
  · intro d v hv
    exact object_hook_oid_eq hv

/-- Witness for the amended C10: the numeric string `"1262304000000"`
under `$date` decodes to 2010-01-01T00:00:00+00:00, and a numeric `$oid`
payload is stringified. -/
theorem claim_C10_payload_coercion_amended_witness :
    object_hook [("$date", Value.vStr "1262304000000")]
      = .ok (.vDatetime ⟨2010, 1, 1, 0, 0, 0, 0, some 0⟩) ∧
    object_hook [("$oid", Value.vNum 7)] = .ok (.vObjectId "7") :=
  ⟨claim_C10_payload_coercion_amended.2.1 [("$date", Value.vStr "1262304000000")]
      "1262304000000" 1262304000000 ⟨2010, 1, 1, 0, 0, 0, 0, some 0⟩ rfl rfl rfl rfl rfl,
   claim_C10_payload_coercion_amended.2.2 [("$oid", Value.vNum 7)] (Value.vNum 7) rfl⟩

/-! ### Calendar lemmas

`ymd2ord` and `ord2ymd` are mutually inverse between valid proleptic
Gregorian dates and positive ordinals.  The month/day recovery step is a
finite check; the year recovery is the arithmetic of the 400/100/4/1-year
block decomposition. -/

theorem findMonthDay_found (leap : Bool) :
    ∀ m, m < 13 → ∀ d, d < 32 → (1 ≤ m ∧ 1 ≤ d ∧ d ≤ daysInMonth leap m) →
      findMonthDay leap
          (daysBeforeMonthTable m + (if 2 < m ∧ leap = true then 1 else 0) + (d - 1))
        = (m, d) := by
  cases leap <;> decide

theorem daysInMonth_le_31 (leap : Bool) : ∀ mm, mm < 13 → daysInMonth leap mm ≤ 31 := by
  cases leap <;> decide

/-- The 0-based day of the year is at most 364 except on December 31 of a
leap year. -/
theorem dayOfYear_le_364 (leap : Bool) : ∀ mm, mm < 13 → ∀ dd, dd < 32 →
    (1 ≤ mm ∧ 1 ≤ dd ∧ dd ≤ daysInMonth leap mm ∧ ¬(mm = 12 ∧ dd = 31 ∧ leap = true)) →
    daysBeforeMonthTable mm + (if 2 < mm ∧ leap = true then 1 else 0) + (dd - 1) ≤ 364 := by
  cases leap <;> decide

theorem findMonthDay_inv (leap : Bool) :
    ∀ nn, nn < 365 →
      1 ≤ (findMonthDay leap nn).1 ∧ (findMonthDay leap nn).1 ≤ 12 ∧
      1 ≤ (findMonthDay leap nn).2 ∧
      (findMonthDay leap nn).2 ≤ daysInMonth leap (findMonthDay leap nn).1 ∧
      daysBeforeMonthTable (findMonthDay leap nn).1
        + (if 2 < (findMonthDay leap nn).1 ∧ leap = true then 1 else 0)
        + ((findMonthDay leap nn).2 - 1) = nn := by
  cases leap <;> (set_option maxRecDepth 4000 in decide)

/-- Closed form of `ymd2ord` through the 400/100/4/1-year block
decomposition of the preceding years. -/
theorem ymd2ord_eq (y m d : Nat) (hy : 1 ≤ y) (a b c e : Nat)
    (hsum : y - 1 = 400 * a + 100 * b + 4 * c + e)
    (hb : b ≤ 3) (hc : c ≤ 24) (he : e ≤ 3) :
    ymd2ord y m d = 146097 * a + 36524 * b + 1461 * c + 365 * e
      + (daysBeforeMonthTable m + (if 2 < m ∧ isLeap y = true then 1 else 0) + d) := by
  simp only [ymd2ord, daysBeforeYear, daysBeforeMonth]
  generalize (if 2 < m ∧ isLeap y = true then 1 else 0) = L
  omega

/-- `ord2ymd` at the last day of a 400-year cycle. -/
theorem ord2ymd_end400 (a : Nat) :
    ord2ymd (146097 * a + 146097) = (400 * a + 400, 12, 31) := by
  simp only [ord2ymd]
  have e1 : (146097 * a + 146097 - 1) / 146097 = a := by omega
  have e2 : (146097 * a + 146097 - 1) % 146097 = 146096 := by omega
  rw [e1, e2]
  rw [if_pos (by omega : 146096 % 36524 % 1461 / 365 = 4 ∨ 146096 / 36524 = 4)]
  refine Prod.ext ?_ rfl
  omega

/-- `ord2ymd` at the last day of a 4-year sub-cycle that is not also the
last day of a 100-year sub-cycle (so the year is a leap year). -/
theorem ord2ymd_end4 (a b c : Nat) (hb : b ≤ 3) (hc : c ≤ 23) :
    ord2ymd (146097 * a + 36524 * b + 1461 * c + 1461)
      = (400 * a + 100 * b + 4 * c + 4, 12, 31) := by
  simp only [ord2ymd]
  have e1 : (146097 * a + 36524 * b + 1461 * c + 1461 - 1) / 146097 = a := by omega
  have e2 : (146097 * a + 36524 * b + 1461 * c + 1461 - 1) % 146097
      = 36524 * b + 1461 * c + 1460 := by omega
  rw [e1, e2]
  have e3 : (36524 * b + 1461 * c + 1460) / 36524 = b := by omega
  have e4 : (36524 * b + 1461 * c + 1460) % 36524 = 1461 * c + 1460 := by omega
  rw [e3, e4]
  have e5 : (1461 * c + 1460) / 1461 = c := by omega
  have e6 : (1461 * c + 1460) % 1461 = 1460 := by omega
  rw [e5, e6]
  rw [if_pos (by omega : 1460 / 365 = 4 ∨ b = 4)]
  refine Prod.ext ?_ rfl
  omega

/-- `ord2ymd` on a generic day (not the last day of a 4-year or 400-year
cycle): the year blocks are recovered by the division chain and the rest
is handed to the month/day search. -/
theorem ord2ymd_generic (a b c e nn : Nat)
    (hb : b ≤ 3) (hc : c ≤ 24) (he : e ≤ 3) (hnn : nn ≤ 364) :
    ord2ymd (146097 * a + 36524 * b + 1461 * c + 365 * e + nn + 1)
      = (400 * a + 100 * b + 4 * c + e + 1,
         (findMonthDay (e == 3 && (c != 24 || b == 3)) nn).1,
         (findMonthDay (e == 3 && (c != 24 || b == 3)) nn).2) := by
  simp only [ord2ymd]
  have e1 : (146097 * a + 36524 * b + 1461 * c + 365 * e + nn + 1 - 1) / 146097 = a := by
    omega
  have e2 : (146097 * a + 36524 * b + 1461 * c + 365 * e + nn + 1 - 1) % 146097
      = 36524 * b + 1461 * c + 365 * e + nn := by
    omega
  rw [e1, e2]
  have e3 : (36524 * b + 1461 * c + 365 * e + nn) / 36524 = b := by omega
  have e4 : (36524 * b + 1461 * c + 365 * e + nn) % 36524 = 1461 * c + 365 * e + nn := by
    omega
  rw [e3, e4]
  have e5 : (1461 * c + 365 * e + nn) / 1461 = c := by omega
  have e6 : (1461 * c + 365 * e + nn) % 1461 = 365 * e + nn := by omega
  rw [e5, e6]
  have e7 : (365 * e + nn) / 365 = e := by omega
  have e8 : (365 * e + nn) % 365 = nn := by omega
  rw [e7, e8]
  rw [if_neg (by omega : ¬(e = 4 ∨ b = 4))]
  refine Prod.ext ?_ rfl
  omega

/-- Forward inverse: `ord2ymd` recovers a valid date from its ordinal. -/
theorem ord2ymd_ymd2ord (y m d : Nat) (hy : 1 ≤ y) (hm1 : 1 ≤ m) (hm2 : m ≤ 12)
    (hd1 : 1 ≤ d) (hd2 : d ≤ daysInMonth (isLeap y) m) :
    ord2ymd (ymd2ord y m d) = (y, m, d) := by
  obtain ⟨a, b, c, e, hsum, hb, hc, he⟩ :
      ∃ a b c e, y - 1 = 400 * a + 100 * b + 4 * c + e ∧ b ≤ 3 ∧ c ≤ 24 ∧ e ≤ 3 :=
    ⟨(y - 1) / 400, (y - 1) % 400 / 100, (y - 1) % 400 % 100 / 4, (y - 1) % 400 % 100 % 4,
      by omega, by omega, by omega, by omega⟩
  have hleap : isLeap y = true ↔ (e = 3 ∧ (c ≠ 24 ∨ b = 3)) := by
    simp only [isLeap, Bool.and_eq_true, beq_iff_eq, Bool.or_eq_true, bne_iff_ne, ne_eq]
    omega
  have hEq := ymd2ord_eq y m d hy a b c e hsum hb hc he
  by_cases hsp : m = 12 ∧ d = 31 ∧ isLeap y = true
  · obtain ⟨hm12, hd31, hly⟩ := hsp
    obtain ⟨he3, hcb⟩ := hleap.mp hly
    subst hm12
    subst hd31
    have ht12 : daysBeforeMonthTable 12 = 334 := rfl
    rw [if_pos ⟨by omega, hly⟩, ht12] at hEq
    by_cases hc24 : c = 24
    · have hb3 : b = 3 := by
        rcases hcb with h | h
        · exact absurd hc24 h
        · exact h
      have hN : ymd2ord y 12 31 = 146097 * a + 146097 := by omega
      rw [hN, ord2ymd_end400 a]
      refine Prod.ext ?_ rfl
      omega
    · have hN : ymd2ord y 12 31 = 146097 * a + 36524 * b + 1461 * c + 1461 := by omega
      rw [hN, ord2ymd_end4 a b c hb (by omega)]
      refine Prod.ext ?_ rfl
      omega
  · have hd32 : d < 32 := by
      have := daysInMonth_le_31 (isLeap y) m (by omega)
      omega
    have hnnle := dayOfYear_le_364 (isLeap y) m (by omega) d hd32 ⟨hm1, hd1, hd2, hsp⟩
    have hN : ymd2ord y m d
        = 146097 * a + 36524 * b + 1461 * c + 365 * e
          + (daysBeforeMonthTable m + (if 2 < m ∧ isLeap y = true then 1 else 0) + (d - 1))
          + 1 := by
      rw [hEq]
      generalize (if 2 < m ∧ isLeap y = true then 1 else 0) = L
      omega
    rw [hN,
      ord2ymd_generic a b c e
        (daysBeforeMonthTable m + (if 2 < m ∧ isLeap y = true then 1 else 0) + (d - 1))
        hb hc he hnnle]
    have hBP : (e == 3 && (c != 24 || b == 3)) = true ↔ (e = 3 ∧ (c ≠ 24 ∨ b = 3)) := by
      simp [Bool.and_eq_true, beq_iff_eq, Bool.or_eq_true, bne_iff_ne]
    have hly : (e == 3 && (c != 24 || b == 3)) = isLeap y := by
      cases hIL : isLeap y
      · cases hE : (e == 3 && (c != 24 || b == 3))
        · rfl
        · exfalso
          rw [hleap.mpr (hBP.mp hE)] at hIL
          exact absurd hIL (by decide)
      · exact hBP.mpr (hleap.mp hIL)
    rw [hly, findMonthDay_found (isLeap y) m (by omega) d hd32 ⟨hm1, hd1, hd2⟩]
    refine Prod.ext ?_ rfl
    omega

/-- Reverse inverse: every positive ordinal is `ymd2ord` of the valid date
`ord2ymd` computes for it. -/
theorem ymd2ord_ord2ymd (n : Nat) (hn : 1 ≤ n) :
    1 ≤ (ord2ymd n).1 ∧
    1 ≤ (ord2ymd n).2.1 ∧ (ord2ymd n).2.1 ≤ 12 ∧
    1 ≤ (ord2ymd n).2.2 ∧
    (ord2ymd n).2.2 ≤ daysInMonth (isLeap (ord2ymd n).1) (ord2ymd n).2.1 ∧
    ymd2ord (ord2ymd n).1 (ord2ymd n).2.1 (ord2ymd n).2.2 = n := by
  obtain ⟨a, r, har, hrlt⟩ : ∃ a r, n - 1 = 146097 * a + r ∧ r < 146097 :=
    ⟨(n - 1) / 146097, (n - 1) % 146097, by omega, by omega⟩
  obtain ⟨b, r2, hbr, hr2lt⟩ : ∃ b r2, r = 36524 * b + r2 ∧ r2 < 36524 :=
    ⟨r / 36524, r % 36524, by omega, by omega⟩
  obtain ⟨c, r3, hcr, hr3lt⟩ : ∃ c r3, r2 = 1461 * c + r3 ∧ r3 < 1461 :=
    ⟨r2 / 1461, r2 % 1461, by omega, by omega⟩
  obtain ⟨e, rest, her, hrestlt⟩ : ∃ e rest, r3 = 365 * e + rest ∧ rest < 365 :=
    ⟨r3 / 365, r3 % 365, by omega, by omega⟩
  have hcle : c ≤ 24 := by omega
  have ht12 : daysBeforeMonthTable 12 = 334 := rfl
  have hdim12 : ∀ lp : Bool, daysInMonth lp 12 = 31 := by decide
  by_cases hb4 : b = 4
  · have hr0 : r2 = 0 ∧ r = 146096 := by omega
    have hn400 : n = 146097 * a + 146097 := by omega
    have hly : isLeap (400 * a + 400) = true := by
      simp only [isLeap, Bool.and_eq_true, beq_iff_eq, Bool.or_eq_true, bne_iff_ne, ne_eq]
      omega
    rw [hn400, ord2ymd_end400 a]
    dsimp only
    refine ⟨by omega, by omega, by omega, by omega, ?_, ?_⟩
    · rw [hdim12]
    · have heq := ymd2ord_eq (400 * a + 400) 12 31 (by omega) a 3 24 3
        (by omega) (by omega) (by omega) (by omega)
      rw [if_pos ⟨by omega, hly⟩, ht12] at heq
      omega
  · by_cases he4 : e = 4
    · have hr1460 : r3 = 1460 ∧ rest = 0 := by omega
      have hc23 : c ≤ 23 := by omega
      have hn4 : n = 146097 * a + 36524 * b + 1461 * c + 1461 := by omega
      have hly : isLeap (400 * a + 100 * b + 4 * c + 4) = true := by
        simp only [isLeap, Bool.and_eq_true, beq_iff_eq, Bool.or_eq_true, bne_iff_ne, ne_eq]
        omega
      rw [hn4, ord2ymd_end4 a b c (by omega) hc23]
      dsimp only
      refine ⟨by omega, by omega, by omega, by omega, ?_, ?_⟩
      · rw [hdim12]
      · have heq := ymd2ord_eq (400 * a + 100 * b + 4 * c + 4) 12 31 (by omega) a b c 3
          (by omega) (by omega) hcle (by omega)
        rw [if_pos ⟨by omega, hly⟩, ht12] at heq
        omega
    · have hng : n = 146097 * a + 36524 * b + 1461 * c + 365 * e + rest + 1 := by omega
      rw [hng, ord2ymd_generic a b c e rest (by omega) hcle (by omega) (by omega)]
      dsimp only
      obtain ⟨hm1', hm2', hd1', hd2', heqT⟩ :=
        findMonthDay_inv (e == 3 && (c != 24 || b == 3)) rest hrestlt
      have hBP : (e == 3 && (c != 24 || b == 3)) = true ↔ (e = 3 ∧ (c ≠ 24 ∨ b = 3)) := by
        simp [Bool.and_eq_true, beq_iff_eq, Bool.or_eq_true, bne_iff_ne]
      have hPL : isLeap (400 * a + 100 * b + 4 * c + e + 1) = true
          ↔ (e = 3 ∧ (c ≠ 24 ∨ b = 3)) := by
        simp only [isLeap, Bool.and_eq_true, beq_iff_eq, Bool.or_eq_true, bne_iff_ne, ne_eq]
        omega
      have hliff : isLeap (400 * a + 100 * b + 4 * c + e + 1)
          = (e == 3 && (c != 24 || b == 3)) := by
        cases hE : (e == 3 && (c != 24 || b == 3))
        · cases hIL : isLeap (400 * a + 100 * b + 4 * c + e + 1)
          · rfl
          · have hcontr := hBP.mpr (hPL.mp hIL)
            rw [hE] at hcontr
            exact absurd hcontr (by decide)
        · exact hPL.mpr (hBP.mp hE)
      refine ⟨by omega, hm1', hm2', hd1', ?_, ?_⟩
      · rw [hliff]
        exact hd2'
      · rw [ymd2ord_eq (400 * a + 100 * b + 4 * c + e + 1)
          (findMonthDay (e == 3 && (c != 24 || b == 3)) rest).1
          (findMonthDay (e == 3 && (c != 24 || b == 3)) rest).2
          (by omega) a b c e (by omega) (by omega) hcle (by omega)]
        rw [hliff]
        omega

theorem one_le_ymd2ord (y m d : Nat) (hd : 1 ≤ d) : 1 ≤ ymd2ord y m d := by
  simp only [ymd2ord, daysBeforeYear, daysBeforeMonth]
  generalize (if 2 < m ∧ isLeap y = true then 1 else 0) = L
  omega

/-- The largest ordinal of a valid date is `ymd2ord 9999 12 31 = 3652059`
(the ordinal of `datetime.max`). -/
theorem ymd2ord_le_max (y m d : Nat) (hy2 : y ≤ 9999) (hm1 : 1 ≤ m) (hm2 : m ≤ 12)
    (hd2 : d ≤ daysInMonth (isLeap y) m) : ymd2ord y m d ≤ 3652059 := by
  have htab : ∀ mm : Nat, mm ≤ 11 →
      daysBeforeMonthTable (mm + 1) + dimTable (mm + 1) ≤ 365 := by decide
  have htabm := htab (m - 1) (by omega)
  have hm' : m - 1 + 1 = m := by omega
  rw [hm'] at htabm
  simp only [ymd2ord, daysBeforeYear, daysBeforeMonth, daysInMonth] at hd2 ⊢
  cases hIL : isLeap y
  · rw [hIL] at hd2
    simp only [Bool.false_eq_true, and_false, if_false] at hd2 ⊢
    omega
  · have hIL' := hIL
    simp only [isLeap, Bool.and_eq_true, beq_iff_eq, Bool.or_eq_true, bne_iff_ne,
      ne_eq] at hIL'
    rw [hIL] at hd2
    simp only [eq_self_iff_true, and_true] at hd2 ⊢
    split_ifs at hd2 ⊢ <;> omega

/-- Rebuilding a valid datetime from its own ordinal/microsecond form is
the identity on the calendar and time fields and stays within the
supported range (Python's `dt - timedelta(0)` round-trip through
`toordinal`). -/
theorem ofOrdinalMicros_toOrdinalMicros (dt : PyDatetime) (hv : dt.Valid) (off : Option Int) :
    ofOrdinalMicros (toOrdinalMicros dt) off
      = Except.ok ⟨dt.year, dt.month, dt.day, dt.hour, dt.minute, dt.second,
          dt.microsecond, off⟩ := by
  obtain ⟨y, mo, da, hh, mi, ss, us, o⟩ := dt
  simp only [PyDatetime.Valid] at hv
  obtain ⟨hy1, hy2, hm1, hm2, hd1, hd2, hhh, hmi, hss, hus⟩ := hv
  have hord1 : 1 ≤ ymd2ord y mo da := one_le_ymd2ord y mo da hd1
  have hordM : ymd2ord y mo da ≤ 3652059 := ymd2ord_le_max y mo da hy2 hm1 hm2 hd2
  generalize hX : toOrdinalMicros ⟨y, mo, da, hh, mi, ss, us, o⟩ = X
  simp only [toOrdinalMicros] at hX
  have hcond : 0 ≤ X ∧ X < 3652059 * 86400000000 := by omega
  simp only [ofOrdinalMicros]
  rw [if_pos hcond]
  have hXn : X.toNat = (ymd2ord y mo da - 1) * 86400000000
      + (hh * 3600000000 + mi * 60000000 + ss * 1000000 + us) := by
    omega
  have hdiv : X.toNat / 86400000000 + 1 = ymd2ord y mo da := by omega
  have hrem : X.toNat % 86400000000
      = hh * 3600000000 + mi * 60000000 + ss * 1000000 + us := by
    omega
  rw [hdiv, hrem, ord2ymd_ymd2ord y mo da hy1 hm1 hm2 hd1 hd2]
  dsimp only
  simp only [Except.ok.injEq, PyDatetime.mk.injEq, eq_self_iff_true, true_and, and_true]
  omega

/-- Decoding the integral millisecond timestamp the encode hook computes
for a valid datetime rebuilds the same wall-clock fields, with the
microseconds truncated to whole milliseconds and the `utc` tzinfo
attached; such a timestamp is always inside `fromtimestamp`'s range. -/
theorem fromtimestampMillisUtc_eq (dt : PyDatetime) (hv : dt.Valid) :
    fromtimestampMillisUtc (timegmTT dt * 1000 + (dt.microsecond : Int) / 1000)
      = Except.ok ⟨dt.year, dt.month, dt.day, dt.hour, dt.minute, dt.second,
          dt.microsecond / 1000 * 1000, some 0⟩ := by
  obtain ⟨y, mo, da, hh, mi, ss, us, o⟩ := dt
  simp only [PyDatetime.Valid] at hv
  obtain ⟨hy1, hy2, hm1, hm2, hd1, hd2, hhh, hmi, hss, hus⟩ := hv
  have hord1 : 1 ≤ ymd2ord y mo da := one_le_ymd2ord y mo da hd1
  have hordM : ymd2ord y mo da ≤ 3652059 := ymd2ord_le_max y mo da hy2 hm1 hm2 hd2
  generalize hM : timegmTT ⟨y, mo, da, hh, mi, ss, us, o⟩ * 1000 + (us : Int) / 1000 = M
  simp only [timegmTT, epochOrdinal] at hM
  simp only [fromtimestampMillisUtc, epochOrdinal]
  have h1 : Int.fdiv M 1000
      = ((ymd2ord y mo da : Int) - 719163) * 86400 + hh * 3600 + mi * 60 + ss := by
    rw [Int.fdiv_eq_ediv _ (by norm_num)]
    omega
  have h2 : Int.fmod M 1000 = ((us / 1000 : Nat) : Int) := by
    rw [Int.fmod_eq_emod _ (by norm_num)]
    omega
  rw [h1, h2]
  have h3 : Int.fdiv (((ymd2ord y mo da : Int) - 719163) * 86400 + hh * 3600 + mi * 60 + ss)
        86400 = (ymd2ord y mo da : Int) - 719163 := by
    rw [Int.fdiv_eq_ediv _ (by norm_num)]
    omega
  have h4 : (Int.fmod (((ymd2ord y mo da : Int) - 719163) * 86400 + hh * 3600 + mi * 60 + ss)
        86400).toNat = hh * 3600 + mi * 60 + ss := by
    rw [Int.fmod_eq_emod _ (by norm_num)]
    omega
  rw [h3, h4]
  have hcond : 1 ≤ (ymd2ord y mo da : Int) - 719163 + ((719163 : Nat) : Int) ∧
      (ymd2ord y mo da : Int) - 719163 + ((719163 : Nat) : Int) ≤ 3652059 := by
    omega
  rw [if_pos hcond]
  have h5 : ((ymd2ord y mo da : Int) - 719163 + ((719163 : Nat) : Int)).toNat
      = ymd2ord y mo da := by omega
  rw [h5, ord2ymd_ymd2ord y mo da hy1 hm1 hm2 hd1 hd2]
  dsimp only
  simp only [Except.ok.injEq, PyDatetime.mk.injEq, eq_self_iff_true, true_and, and_true]
  omega

/-- The millisecond value the encode hook computes from the wall-clock
fields equals the spec's formula
`floor(seconds-since-epoch) * 1000 + floor(microseconds / 1000)` applied
to the same instant expressed in microseconds since the Unix epoch. -/
theorem millis_formula_of_fields (dt : PyDatetime) (hus : dt.microsecond < 1000000) :
    timegmTT dt * 1000 + (dt.microsecond : Int) / 1000
      = 1000 * Int.fdiv (toOrdinalMicros dt - 719162 * 86400000000) 1000000
        + Int.fmod (toOrdinalMicros dt - 719162 * 86400000000) 1000000 / 1000 := by
  obtain ⟨y, mo, da, hh, mi, ss, us, o⟩ := dt
  simp only [timegmTT, toOrdinalMicros, epochOrdinal] at *
  rw [Int.fdiv_eq_ediv _ (by norm_num), Int.fmod_eq_emod _ (by norm_num)]
  omega

/-- `ofOrdinalMicros` is a section of `toOrdinalMicros` on in-range
instants, and the rebuilt time fields are in range. -/
theorem toOrdinalMicros_ofOrdinalMicros (X : Int) (hX : 0 ≤ X)
    (hX2 : X < 3652059 * 86400000000) (off : Option Int) {dtU : PyDatetime}
    (h : ofOrdinalMicros X off = Except.ok dtU) :
    toOrdinalMicros dtU = X ∧
    dtU.hour < 24 ∧ dtU.minute < 60 ∧ dtU.second < 60 ∧ dtU.microsecond < 1000000 ∧
    dtU.utcOffsetMinutes = off := by
  obtain ⟨h1', h2', h3', h4', h5', h6'⟩ :=
    ymd2ord_ord2ymd (X.toNat / 86400000000 + 1) (by omega)
  simp only [ofOrdinalMicros] at h
  rw [if_pos (And.intro hX hX2)] at h
  have h' := Except.ok.inj h
  subst h'
  refine ⟨?_, ?_, ?_, ?_, ?_, rfl⟩
  · simp only [toOrdinalMicros]
    rw [h6']
    omega
  · show X.toNat % 86400000000 / 3600000000 < 24
    omega
  · show X.toNat % 86400000000 % 3600000000 / 60000000 < 60
    omega
  · show X.toNat % 86400000000 % 60000000 / 1000000 < 60
    omega
  · show X.toNat % 86400000000 % 1000000 < 1000000
    omega

/-- C1: every supported extended value round-trips: an identifier, a
reference with or without a database name, a UTC point in time at
millisecond resolution, a pattern whose flags are any subset of
`{IGNORECASE, MULTILINE}`, the min sentinel and the max sentinel each
encode to a mapping that decodes back to an equal value. -/
theorem claim_C1_roundtrip :
    (∀ s : String, RoundTrips (.vObjectId s)) ∧
    (∀ (c i : Value) (db : Option Value), RoundTrips (.vDBRef c i db)) ∧
    (∀ dt : PyDatetime, dt.Valid → dt.utcOffsetMinutes = some 0 →
      dt.microsecond % 1000 = 0 → RoundTrips (.vDatetime dt)) ∧
    (∀ (p : String) (fi fm : Bool),
      RoundTrips (.vRegex p ((cond fi reIGNORECASE 0) ||| (cond fm reMULTILINE 0)))) ∧
    RoundTrips .vMinKey ∧ RoundTrips .vMaxKey := by
  refine ⟨?_, ?_, ?_, ?_, ⟨_, rfl, rfl⟩, ⟨_, rfl, rfl⟩⟩
  · intro s
    exact ⟨_, rfl, rfl⟩
  · intro c i db
    rcases db with _ | dbv <;> exact ⟨_, rfl, rfl⟩
  · intro dt hv hoff hms
    obtain ⟨y, mo, da, hh, mi, ss, us, o⟩ := dt
    dsimp only at hoff hms
    subst hoff
    simp only [PyDatetime.Valid] at hv
    obtain ⟨hy1, hy2, hm1, hm2, hd1, hd2, hhh, hmi, hss, hus⟩ := hv
    have hv' : PyDatetime.Valid ⟨y, mo, da, hh, mi, ss, us, some 0⟩ :=
      ⟨hy1, hy2, hm1, hm2, hd1, hd2, hhh, hmi, hss, hus⟩
    have hL2 := ofOrdinalMicros_toOrdinalMicros ⟨y, mo, da, hh, mi, ss, us, some 0⟩ hv' (some 0)
    dsimp only at hL2
    have hsub : dtSubMicros ⟨y, mo, da, hh, mi, ss, us, some 0⟩ ((0 : Int) * 60000000)
        = Except.ok ⟨y, mo, da, hh, mi, ss, us, some 0⟩ := by
      simp only [dtSubMicros, zero_mul, sub_zero]
      exact hL2
    have hL3 := fromtimestampMillisUtc_eq ⟨y, mo, da, hh, mi, ss, us, some 0⟩ hv'
    dsimp only at hL3
    have husr : us / 1000 * 1000 = us := by omega
    rw [husr] at hL3
    refine ⟨[("$date",
        .vNum (timegmTT ⟨y, mo, da, hh, mi, ss, us, some 0⟩ * 1000 + (us : Int) / 1000))],
      ?_, ?_⟩
    · exact default_vDatetime_ok rfl hsub
    · have hobj : object_hook [("$date",
          .vNum (timegmTT ⟨y, mo, da, hh, mi, ss, us, some 0⟩ * 1000 + (us : Int) / 1000))]
          = (fromtimestampMillisUtc
              (timegmTT ⟨y, mo, da, hh, mi, ss, us, some 0⟩ * 1000 + (us : Int) / 1000)).bind
              (fun dtv => Except.ok (.vDatetime dtv)) := rfl
      rw [hobj, hL3]
      rfl
  · intro p fi fm
    cases fi <;> cases fm <;> exact ⟨_, rfl, rfl⟩

/-- Witness for C1: the UTC point in time 2010-01-01T00:00:00+00:00 (a
millisecond-resolution value) round-trips, as does a pattern with both
supported flags. -/
theorem claim_C1_roundtrip_witness :
    RoundTrips (.vDatetime ⟨2010, 1, 1, 0, 0, 0, 0, some 0⟩) ∧
    RoundTrips (.vRegex "p" ((cond true reIGNORECASE 0) ||| (cond true reMULTILINE 0))) :=
  ⟨claim_C1_roundtrip.2.2.1 ⟨2010, 1, 1, 0, 0, 0, 0, some 0⟩ (by decide) rfl (by decide),
   claim_C1_roundtrip.2.2.2.1 "p" true true⟩

/-- C9: an offset-naive datetime is interpreted as already being UTC: it
encodes to exactly the same `$date` mapping as the equal wall-clock time
tagged with a zero UTC offset; no local time zone is consulted (the model
has no local-zone input at all). -/
theorem claim_C9_naive_is_utc (dt : PyDatetime) (hv : dt.Valid)
    (hnaive : dt.utcOffsetMinutes = none) :
    default (.vDatetime dt)
      = default (.vDatetime { dt with utcOffsetMinutes := some 0 }) := by
  obtain ⟨y, mo, da, hh, mi, ss, us, o⟩ := dt
  dsimp only at hnaive
  subst hnaive
  simp only [PyDatetime.Valid] at hv
  obtain ⟨hy1, hy2, hm1, hm2, hd1, hd2, hhh, hmi, hss, hus⟩ := hv
  have hv' : PyDatetime.Valid ⟨y, mo, da, hh, mi, ss, us, some 0⟩ :=
    ⟨hy1, hy2, hm1, hm2, hd1, hd2, hhh, hmi, hss, hus⟩
  have hL2 := ofOrdinalMicros_toOrdinalMicros ⟨y, mo, da, hh, mi, ss, us, some 0⟩ hv' (some 0)
  dsimp only at hL2
  have hsub : dtSubMicros ⟨y, mo, da, hh, mi, ss, us, some 0⟩ ((0 : Int) * 60000000)
      = Except.ok ⟨y, mo, da, hh, mi, ss, us, some 0⟩ := by
    simp only [dtSubMicros, zero_mul, sub_zero]
    exact hL2
  rw [default_vDatetime_naive rfl, default_vDatetime_ok rfl hsub]
  rfl

/-- Witness for C9 at the naive wall-clock time 2010-01-01T00:00:00. -/
theorem claim_C9_naive_is_utc_witness :
    default (.vDatetime ⟨2010, 1, 1, 0, 0, 0, 0, none⟩)
      = default (.vDatetime ⟨2010, 1, 1, 0, 0, 0, 0, some 0⟩) :=
  claim_C9_naive_is_utc ⟨2010, 1, 1, 0, 0, 0, 0, none⟩ (by decide) rfl

/-- C7 counterexample: the claim as stated is false at the upper edge of
the calendar — for 9999-12-31T23:00:00 with UTC offset -120 minutes the
normalization `obj - obj.utcoffset()` leaves the supported range, so
`default` raises `OverflowError` instead of returning any `$date`
mapping. -/
theorem claim_C7_overflow_counterexample :
    default (.vDatetime ⟨9999, 12, 31, 23, 0, 0, 0, some (-120)⟩)
      = .error (.overflowError "date value out of range") ∧
    ∀ m : Int, default (.vDatetime ⟨9999, 12, 31, 23, 0, 0, 0, some (-120)⟩)
      ≠ .ok (.vObj [("$date", .vNum m)]) := by
  refine ⟨rfl, ?_⟩
  intro m h
  have h' : (Except.error (PyError.overflowError "date value out of range")
      : Except PyError Value) = .ok (.vObj [("$date", .vNum m)]) := h
  exact Except.noConfusion h'

/-- C7 (amended): for every valid datetime whose UTC normalization
`obj - obj.utcoffset()` stays inside the supported calendar range
(years 1..9999 — outside it Python's own datetime arithmetic raises
`OverflowError`), `default` first subtracts the UTC offset when one is
present and returns `{"$date": m}` where `m` is exactly
`floor(seconds-since-epoch) * 1000 + floor(microseconds / 1000)` of the
normalized instant (`specDateMillis`, written from the spec's words); in
particular encoding 2010-01-01T00:00:00.000Z yields
`{"$date": 1262304000000}`. -/
theorem claim_C7_date_millis_amended (dt : PyDatetime) (hv : dt.Valid)
    (hlo : 0 ≤ toOrdinalMicros dt - (dt.utcOffsetMinutes.getD 0) * 60000000)
    (hhi : toOrdinalMicros dt - (dt.utcOffsetMinutes.getD 0) * 60000000
      < 3652059 * 86400000000) :
    default (.vDatetime dt) = .ok (.vObj [("$date", .vNum (specDateMillis dt))]) ∧
    specDateMillis ⟨2010, 1, 1, 0, 0, 0, 0, some 0⟩ = 1262304000000 ∧
    default (.vDatetime ⟨2010, 1, 1, 0, 0, 0, 0, some 0⟩)
      = .ok (.vObj [("$date", .vNum 1262304000000)]) := by
  refine ⟨?_, rfl, rfl⟩
  obtain ⟨hy1, hy2, hm1, hm2, hd1, hd2, hhh, hmi, hss, hus⟩ := hv
  cases hoff : dt.utcOffsetMinutes with
  | none =>
    rw [default_vDatetime_naive hoff]
    have hf := millis_formula_of_fields dt hus
    rw [hf]
    simp only [specDateMillis, hoff, Option.getD, zero_mul, sub_zero]
  | some ov =>
    simp only [hoff, Option.getD] at hlo hhi
    have hsub : ∃ dtU, dtSubMicros dt (ov * 60000000) = Except.ok dtU := by
      simp only [dtSubMicros, ofOrdinalMicros, hoff]
      rw [if_pos (And.intro hlo hhi)]
      exact ⟨_, rfl⟩
    obtain ⟨dtU, hsubU⟩ := hsub
    rw [default_vDatetime_ok hoff hsubU]
    obtain ⟨hto, hh24, hm60, hs60, hu1e6, _⟩ :=
      toOrdinalMicros_ofOrdinalMicros (toOrdinalMicros dt - ov * 60000000) hlo hhi
        dt.utcOffsetMinutes (by simpa only [dtSubMicros] using hsubU)
    have hf := millis_formula_of_fields dtU hu1e6
    rw [hto] at hf
    rw [hf]
    simp only [specDateMillis, hoff, Option.getD]

/-- Witness for the amended C7 at 2010-01-01T00:00:00+00:00. -/
theorem claim_C7_date_millis_amended_witness :
    default (.vDatetime ⟨2010, 1, 1, 0, 0, 0, 0, some 0⟩)
      = .ok (.vObj [("$date", .vNum (specDateMillis ⟨2010, 1, 1, 0, 0, 0, 0, some 0⟩))]) :=
  (claim_C7_date_millis_amended ⟨2010, 1, 1, 0, 0, 0, 0, some 0⟩ (by decide)
    (by decide) (by decide)).1

end JsonUtil
